import Mathlib

/-!
Shallow embedding of the propellantBE credential/credit client core:
`src/app/services/xion_rest_client.py` (XionCLIClient: verify_user_token,
_query_contract_rest, _query_contract_cli, _validate_token) and
`src/app/services/xion_service.py` (XionContractService: deduct_cv_credit,
deduct_cv_credit_with_retry).

Python dynamic values decoded from JSON (and built by the CLI key:value
parser) are modelled by the inductive type `J`.  External effects (HTTP
responses, subprocess runs, chain settlement) are supplied as explicit
environment values; the embedded functions are the repository's control
flow over those environments.
-/

namespace Propellant

/-- Model of a Python value as produced by `json.loads` / `response.json()`
or by the CLI key:value parser.  A JSON float literal is kept as its raw
text (`fnum`); no claim inspects a float's numeric value. -/
inductive J where
  | null : J
  | bool (b : Bool) : J
  | num (n : Int) : J
  | fnum (raw : String) : J
  | str (s : String) : J
  | arr (xs : List J) : J
  | obj (kvs : List (String × J)) : J
  deriving Repr, BEq, Inhabited

/-- Python type name of a `J` value, as it appears in TypeError/AttributeError
messages. -/
def pyTypeName : J → String
  | .null => "NoneType"
  | .bool _ => "bool"
  | .num _ => "int"
  | .fnum _ => "float"
  | .str _ => "str"
  | .arr _ => "list"
  | .obj _ => "dict"

/-- A float literal is falsy iff its mantissa has no nonzero digit
(0.0, -0.00, 0e5, ...). -/
def fnumFalsy (raw : String) : Bool :=
  ((raw.toList.takeWhile (fun c => c ≠ 'e' ∧ c ≠ 'E')).filter Char.isDigit).all (· = '0')

/-- Python truthiness of a `J` value. -/
def pyTruthy : J → Bool
  | .null => false
  | .bool b => b
  | .num n => n ≠ 0
  | .fnum raw => ¬ fnumFalsy raw
  | .str s => s ≠ ""
  | .arr xs => ¬ xs.isEmpty
  | .obj kvs => ¬ kvs.isEmpty

/-- `isinstance(result, dict)`. -/
def isDict : J → Bool
  | .obj _ => true
  | _ => false

/-- Python `dict` lookup on an association list: the last binding of a key
wins (later assignments / later duplicate JSON keys overwrite earlier ones). -/
def pyGet (kvs : List (String × J)) (k : String) : Option J :=
  match kvs with
  | [] => none
  | (k0, v0) :: rest =>
    match pyGet rest k with
    | some v => some v
    | none => if k0 = k then some v0 else none

/-! ### Character-level models of the Python string primitives used
(written structurally so that they reduce inside the kernel). -/

/-- The ASCII whitespace characters Python `str.strip()` removes. -/
def pyWsChar (c : Char) : Bool :=
  c = ' ' ∨ c = '\t' ∨ c = '\n' ∨ c = '\r' ∨ c = '\x0b' ∨ c = '\x0c'

/-- Python `s.strip()` on a character list. -/
def pyStripChars (cs : List Char) : List Char :=
  ((cs.dropWhile pyWsChar).reverse.dropWhile pyWsChar).reverse

/-- Python `s.split(sep)` for a one-character separator: the pieces
between occurrences of `c`, always at least one (possibly empty) piece. -/
def splitOnChar (c : Char) : List Char → List (List Char)
  | [] => [[]]
  | x :: xs =>
    if x = c then [] :: splitOnChar c xs
    else
      match splitOnChar c xs with
      | [] => [[x]]
      | h :: t => (x :: h) :: t

/-- Python `s.split(sep, 1)` at the first occurrence of a one-character
separator; `none` when the separator does not occur. -/
def splitFirstOnChar (c : Char) : List Char → Option (List Char × List Char)
  | [] => none
  | x :: xs =>
    if x = c then some ([], xs)
    else
      match splitFirstOnChar c xs with
      | some kv => some (x :: kv.1, kv.2)
      | none => none

/-- Python `needle in hay` on strings: substring containment. -/
def containsList (needle : List Char) : List Char → Bool
  | [] => needle.isEmpty
  | x :: xs => needle.isPrefixOf (x :: xs) || containsList needle xs

/-- First colon-delimited segment of a string: `s.split(":")[0]`.
`splitOnChar` always returns a nonempty list, so `headD` never takes
its default. -/
def firstSeg (s : String) : String :=
  String.mk ((splitOnChar ':' s.toList).headD [])

/-- TokenMatcher: the pure string-matching policy of
`XionCLIClient._validate_token` (xion_rest_client.py lines 174-193), as a
function of the stored token and the presented token:
`if not stored_token: return False`, exact match, then comparison of the
first `":"`-segments. -/
def tokenMatches (stored token : String) : Bool :=
  if stored = "" then false
  else if stored = token then true
  else
    let sp := splitOnChar ':' stored.toList
    let tp := splitOnChar ':' token.toList
    if 0 < sp.length ∧ 0 < tp.length ∧ sp.headD [] = tp.headD [] then true
    else false

/-- `XionCLIClient._validate_token(result, token)` on a Python dict `result`.
Returns `.error msg` when the Python code would raise: `result.get("token","")`
can hold a truthy non-string, and calling `.split(":")` on it raises
AttributeError (cross-type `==` with the string `token` is simply False, so
control always reaches `.split`). -/
def validateToken (kvs : List (String × J)) (token : String) : Except String Bool :=
  if ¬ pyTruthy ((pyGet kvs "has_active_token").getD (.bool false)) then .ok false
  else
    let sv := (pyGet kvs "token").getD (.str "")
    if ¬ pyTruthy sv then .ok false
    else
      match sv with
      | .str stored => .ok (tokenMatches stored token)
      | v => .error s!"{pyTypeName v} object has no attribute split"

/-! ### A model of Python `json.loads` (the stdlib parser the code calls) -/

/-- JSON whitespace skip (space, tab, newline, carriage return). -/
def skipWs (cs : List Char) : List Char :=
  cs.dropWhile (fun c => c = ' ' ∨ c = '\t' ∨ c = '\n' ∨ c = '\r')

def jsonHexVal (c : Char) : Option Nat :=
  if c.isDigit then some (c.toNat - '0'.toNat)
  else if 'a' ≤ c ∧ c ≤ 'f' then some (c.toNat - 'a'.toNat + 10)
  else if 'A' ≤ c ∧ c ≤ 'F' then some (c.toNat - 'A'.toNat + 10)
  else none

/-- Parse the remainder of a JSON string literal (the opening quote already
consumed), handling the standard escapes. -/
def jsonStringAux (fuel : Nat) (acc : List Char) (cs : List Char) :
    Except String (String × List Char) :=
  match fuel with
  | 0 => .error "fuel exhausted"
  | fuel + 1 =>
    match cs with
    | [] => .error "Unterminated string"
    | '"' :: rest => .ok (String.mk acc.reverse, rest)
    | '\\' :: e :: rest =>
      match e with
      | '"' => jsonStringAux fuel ('"' :: acc) rest
      | '\\' => jsonStringAux fuel ('\\' :: acc) rest
      | '/' => jsonStringAux fuel ('/' :: acc) rest
      | 'b' => jsonStringAux fuel ('\x08' :: acc) rest
      | 'f' => jsonStringAux fuel ('\x0c' :: acc) rest
      | 'n' => jsonStringAux fuel ('\n' :: acc) rest
      | 'r' => jsonStringAux fuel ('\r' :: acc) rest
      | 't' => jsonStringAux fuel ('\t' :: acc) rest
      | 'u' =>
        match rest with
        | a :: b :: c :: d :: rest2 =>
          match jsonHexVal a, jsonHexVal b, jsonHexVal c, jsonHexVal d with
          | some x, some y, some z, some w =>
            jsonStringAux fuel (Char.ofNat (((x * 16 + y) * 16 + z) * 16 + w) :: acc) rest2
          | _, _, _, _ => .error "Invalid unicode escape"
        | _ => .error "Invalid unicode escape"
      | _ => .error "Invalid escape"
    | c :: rest => jsonStringAux fuel (c :: acc) rest

def digitsToNat (cs : List Char) : Nat :=
  cs.foldl (fun n c => n * 10 + (c.toNat - '0'.toNat)) 0

/-- Parse a JSON number at the head of `cs`.  A plain integer becomes
`.num`; a number with a fraction or exponent part keeps its raw text as
`.fnum` (a Python float). -/
def jsonNumber (cs : List Char) : Except String (J × List Char) :=
  let (sign, cs1) := if cs.head? = some '-' then (1, cs.drop 1) else (0, cs)
  let intDs := cs1.takeWhile Char.isDigit
  let cs2 := cs1.dropWhile Char.isDigit
  if intDs.isEmpty then .error "Expecting value"
  else if 1 < intDs.length ∧ intDs.head? = some '0' then .error "Expecting value"
  else
    let fracStep : Option Nat × List Char :=
      match cs2 with
      | '.' :: t =>
        let f := t.takeWhile Char.isDigit
        (if f.isEmpty then none else some (1 + f.length), t.dropWhile Char.isDigit)
      | _ => (some 0, cs2)
    match fracStep with
    | (none, _) => .error "Expecting digits after decimal point"
    | (some fl, cs3) =>
      let expStep : Option Nat × List Char :=
        match cs3 with
        | c :: t =>
          if c = 'e' ∨ c = 'E' then
            let signStep : Nat × List Char :=
              match t with
              | s :: t2 => if s = '+' ∨ s = '-' then (1, t2) else (0, t)
              | [] => (0, t)
            let e := signStep.2.takeWhile Char.isDigit
            (if e.isEmpty then none else some (1 + signStep.1 + e.length),
             signStep.2.dropWhile Char.isDigit)
          else (some 0, cs3)
        | [] => (some 0, cs3)
      match expStep with
      | (none, _) => .error "Expecting digits in exponent"
      | (some el, cs4) =>
        if fl = 0 ∧ el = 0 then
          let v : Int := Int.ofNat (digitsToNat intDs)
          .ok (.num (if sign = 1 then -v else v), cs2)
        else
          .ok (.fnum (String.mk (cs.take (sign + intDs.length + fl + el))), cs4)

mutual

/-- Parse one JSON value (recursive descent, fuel bounds nesting depth). -/
def jsonValue (fuel : Nat) (cs : List Char) : Except String (J × List Char) :=
  match fuel with
  | 0 => .error "fuel exhausted"
  | fuel + 1 =>
    let cs := skipWs cs
    match cs with
    | 't' :: 'r' :: 'u' :: 'e' :: rest => .ok (.bool true, rest)
    | 'f' :: 'a' :: 'l' :: 's' :: 'e' :: rest => .ok (.bool false, rest)
    | 'n' :: 'u' :: 'l' :: 'l' :: rest => .ok (.null, rest)
    | '"' :: rest => do
      let sr ← jsonStringAux (rest.length + 1) [] rest
      .ok (.str sr.1, sr.2)
    | '[' :: rest =>
      match skipWs rest with
      | ']' :: rest2 => .ok (.arr [], rest2)
      | rest1 => do
        let vr ← jsonValue fuel rest1
        let tr ← jsonArrayRest fuel vr.2
        .ok (.arr (vr.1 :: tr.1), tr.2)
    | '{' :: rest =>
      match skipWs rest with
      | '}' :: rest2 => .ok (.obj [], rest2)
      | rest1 => do
        let kv ← jsonMember fuel rest1
        let tr ← jsonObjectRest fuel kv.2
        .ok (.obj (kv.1 :: tr.1), tr.2)
    | _ => jsonNumber cs

/-- Parse one `"key": value` member of a JSON object. -/
def jsonMember (fuel : Nat) (cs : List Char) :
    Except String ((String × J) × List Char) :=
  match fuel with
  | 0 => .error "fuel exhausted"
  | fuel + 1 =>
    match skipWs cs with
    | '"' :: rest => do
      let kr ← jsonStringAux (rest.length + 1) [] rest
      match skipWs kr.2 with
      | ':' :: rest4 => do
        let vr ← jsonValue fuel rest4
        .ok ((kr.1, vr.1), vr.2)
      | _ => .error "Expecting colon delimiter"
    | _ => .error "Expecting property name"

/-- Parse the rest of a JSON array after its first element. -/
def jsonArrayRest (fuel : Nat) (cs : List Char) :
    Except String (List J × List Char) :=
  match fuel with
  | 0 => .error "fuel exhausted"
  | fuel + 1 =>
    match skipWs cs with
    | ']' :: rest => .ok ([], rest)
    | ',' :: rest => do
      let vr ← jsonValue fuel rest
      let tr ← jsonArrayRest fuel vr.2
      .ok (vr.1 :: tr.1, tr.2)
    | _ => .error "Expecting comma delimiter"

/-- Parse the rest of a JSON object after its first member. -/
def jsonObjectRest (fuel : Nat) (cs : List Char) :
    Except String (List (String × J) × List Char) :=
  match fuel with
  | 0 => .error "fuel exhausted"
  | fuel + 1 =>
    match skipWs cs with
    | '}' :: rest => .ok ([], rest)
    | ',' :: rest => do
      let kv ← jsonMember fuel rest
      let tr ← jsonObjectRest fuel kv.2
      .ok (kv.1 :: tr.1, tr.2)
    | _ => .error "Expecting comma delimiter"

end

/-- Model of Python `json.loads` on a character list: parse one JSON
document, then require only trailing whitespace. -/
def jsonLoadsChars (cs : List Char) : Except String J := do
  let vr ← jsonValue (cs.length + 1) cs
  if (skipWs vr.2).isEmpty then .ok vr.1 else .error "Extra data"

/-- Model of Python `json.loads` on a string. -/
def jsonLoads (s : String) : Except String J :=
  jsonLoadsChars s.toList

/-! ### CliFallbackRunner: `_query_contract_cli` -/

/-- One line of the key:value branch: a line starting with two spaces is
stripped and split at its first colon into a key and a value, both
stripped, the value kept as a string; an indented line with no colon
aborts the parse (ValueError from tuple unpacking); other lines are
skipped. -/
def parseYamlLine (acc : List (String × J)) (line : List Char) :
    Except String (List (String × J)) :=
  if [' ', ' '].isPrefixOf line then
    match splitFirstOnChar ':' (pyStripChars line) with
    | some kv =>
      .ok (acc ++ [(String.mk (pyStripChars kv.1), J.str (String.mk (pyStripChars kv.2)))])
    | none => .error "not enough values to unpack (expected 2, got 1)"
  else .ok acc

/-- The key:value branch of `_query_contract_cli`, over the lines of the
stripped output. -/
def parseYamlBlock (output : List Char) : Except String J := do
  let kvs ← (splitOnChar '\n' output).foldlM parseYamlLine ([] : List (String × J))
  .ok (.obj kvs)

/-- Outcome of spawning the CLI subprocess: either the spawn itself raised,
or the process ran, with an exit code and its decoded stdout. -/
inductive CliAttempt where
  | exn (msg : String)
  | ran (exitCode : Int) (stdout : String)

/-- `XionCLIClient._query_contract_cli`: a non-zero exit code raises
without retry; otherwise the stripped stdout is parsed by the key:value
branch when it starts with `"data:"`, else as JSON, any JSON failure being
wrapped as an unparsable-output error. -/
def queryCli : CliAttempt → Except String J
  | .exn m => .error m
  | .ran code out =>
    if code ≠ 0 then .error s!"CLI command failed with code {code}"
    else
      let output := pyStripChars out.toList
      if ("data:".toList).isPrefixOf output then parseYamlBlock output
      else
        match jsonLoadsChars output with
        | .ok v => .ok v
        | .error _ => .error s!"Unable to parse CLI output: {String.mk output}"

/-! ### TransportProbe and the endpoint loop: `_query_contract_rest` -/

/-- One HTTP GET against one endpoint candidate: either `client.get`
raised, or a response arrived with a status code and a body on which
`response.json()` either parses (`.ok`) or raises (`.error`). -/
inductive RestAttempt where
  | exn (msg : String)
  | resp (status : Nat) (body : Except String J)

/-- The `"data"` envelope unwrap in `_query_contract_rest`:
`if "data" in result: return result["data"]; return result`, with Python
`in` / `[]` semantics per value shape — membership on dicts and lists,
substring on strings, TypeError on non-containers and on indexing a list
or string with a string key. -/
def dataUnwrap : J → Except String J
  | .obj kvs =>
    match pyGet kvs "data" with
    | some v => .ok v
    | none => .ok (.obj kvs)
  | .arr xs =>
    if xs.contains (J.str "data") then
      .error "list indices must be integers or slices, not str"
    else .ok (.arr xs)
  | .str s =>
    if containsList "data".toList s.toList then .error "string indices must be integers"
    else .ok (.str s)
  | v => .error s!"argument of type {pyTypeName v} is not iterable"

/-- One iteration of the endpoint loop: `some v` when this endpoint
returns a record (status 200, body parsed, envelope unwrapped), `none`
when the loop moves on — transport exception, non-200 status, body parse
failure, or unwrap TypeError (the latter two are raised inside the `try`
and caught). -/
def tryEndpoint : RestAttempt → Option J
  | .exn _ => none
  | .resp status body =>
    if status = 200 then
      match body with
      | .error _ => none
      | .ok r =>
        match dataUnwrap r with
        | .error _ => none
        | .ok v => some v
    else none

/-- The endpoint loop over a list of candidate indices, also recording
which candidates were attempted, in order. -/
def queryRestAux (env : Nat → RestAttempt) : List Nat → Except String J × List Nat
  | [] => (.error "All REST API endpoints failed", [])
  | i :: rest =>
    match tryEndpoint (env i) with
    | some v => (.ok v, [i])
    | none =>
      let r := queryRestAux env rest
      (r.1, i :: r.2)

/-- `_query_contract_rest`: the three endpoint shapes (standard CosmWasm
path, legacy path, explicit query parameter) are tried in order 0, 1, 2. -/
def queryRest (env : Nat → RestAttempt) : Except String J :=
  (queryRestAux env [0, 1, 2]).1

/-- The endpoint indices attempted by `_query_contract_rest`, in order. -/
def restAttempted (env : Nat → RestAttempt) : List Nat :=
  (queryRestAux env [0, 1, 2]).2

/-! ### CredentialVerifier: `verify_user_token` -/

/-- The external world a single `verify_user_token` call sees: one
response per endpoint candidate, and one CLI run. -/
structure VerifyEnv where
  rest : Nat → RestAttempt
  cli : CliAttempt

/-- The CLI half of `verify_user_token`: run the fallback; a truthy dict
record is validated and its verdict returned; a validation exception or
any other outcome falls through to the fail-open `return True`. -/
def verifyCliPhase (cli : CliAttempt) (token : String) : Bool :=
  match queryCli cli with
  | .ok (.obj kvs) =>
    if pyTruthy (.obj kvs) then
      match validateToken kvs token with
      | .ok b => b
      | .error _ => true
    else true
  | .ok _ => true
  | .error _ => true

/-- `XionCLIClient.verify_user_token`: try REST; a truthy dict record is
validated and its verdict returned; if the REST phase raises (all
endpoints failed, or `_validate_token` itself raised) the CLI fallback
runs; every other path falls through to the fail-open `return True`.
Total by construction: the function never raises. -/
def verify (env : VerifyEnv) (token : String) : Bool :=
  match queryRest env.rest with
  | .ok (.obj kvs) =>
    if pyTruthy (.obj kvs) then
      match validateToken kvs token with
      | .ok b => b
      | .error _ => verifyCliPhase env.cli token
    else true
  | .ok _ => true
  | .error _ => verifyCliPhase env.cli token

/-- Whether control reaches the CLI fallback block inside
`verify_user_token` (its `except` handler): exactly when the REST phase
raised — all candidates failed, or `_validate_token` on the REST record
raised. -/
def cliInvoked (env : VerifyEnv) (token : String) : Bool :=
  match queryRest env.rest with
  | .ok (.obj kvs) =>
    pyTruthy (.obj kvs) &&
      (match validateToken kvs token with
       | .ok _ => false
       | .error _ => true)
  | .ok _ => false
  | .error _ => true

/-! ### CreditLedgerClient: `deduct_cv_credit` and its retry wrapper -/

/-- Validity of the digit body of a Python decimal int literal after the
leading digit: digits, with single underscores strictly between digits. -/
def pyDigitsRest : List Char → Bool
  | [] => true
  | '_' :: rest =>
    match rest with
    | c :: rest2 => c.isDigit && pyDigitsRest rest2
    | [] => false
  | c :: rest => c.isDigit && pyDigitsRest rest

/-- Validity of the digit body of a Python decimal int literal. -/
def pyDigitsOk : List Char → Bool
  | [] => false
  | c :: rest => c.isDigit && pyDigitsRest rest

/-- Model of Python `int(s)` on a string: strip whitespace, allow one
sign, then decimal digits (single underscores between digits allowed);
any other shape raises ValueError naming the original string. -/
def pyInt (s : String) : Except String Int :=
  let t := pyStripChars s.toList
  let body :=
    match t with
    | '-' :: r => r
    | '+' :: r => r
    | r => r
  if pyDigitsOk body then
    let v : Int := Int.ofNat (digitsToNat (body.filter Char.isDigit))
    .ok (match t with | '-' :: _ => -v | _ => v)
  else .error s!"invalid literal for int() with base 10: {s}"

/-- One attribute of an emitted transaction event. -/
structure EventAttr where
  key : String
  value : String

/-- One emitted transaction event: a type tag and its attributes. -/
structure TxEvent where
  type : String
  attributes : List EventAttr

/-- What the chain does with one submitted deduct transaction: either some
stage (signing, broadcast, waiting for settlement) raises with a message,
or the transaction settles with a hash and the logs of its execution
(each log a list of events). -/
inductive ChainEnv where
  | raises (msg : String)
  | settles (txHash : String) (logs : List (List TxEvent))

/-- The credits-remaining scan of `deduct_cv_credit`: starting from 0,
fold over all logs, events and attributes, overwriting the counter with
`int(attr.value)` at every attribute keyed `credits_remaining` of a
`wasm`-typed event; a non-integer value makes `int` raise out of the
scan. -/
def scanCredits (logs : List (List TxEvent)) : Except String Int :=
  logs.foldlM (fun acc log =>
    log.foldlM (fun acc ev =>
      if ev.type = "wasm" then
        ev.attributes.foldlM (fun acc attr =>
          if attr.key = "credits_remaining" then pyInt attr.value
          else .ok acc) acc
      else .ok acc) acc) 0

/-- The values of all `credits_remaining` attributes of `wasm`-typed
events, in the order the scan in `deduct_cv_credit` visits them. -/
def wasmCreditsVals (logs : List (List TxEvent)) : List String :=
  logs.flatMap fun log =>
    log.flatMap fun ev =>
      if ev.type = "wasm" then
        ev.attributes.filterMap fun attr =>
          if attr.key = "credits_remaining" then some attr.value else none
      else []

/-- The dict returned by `deduct_cv_credit` / `deduct_cv_credit_with_retry`;
keys absent from the returned dict are `none`. -/
structure DeductionOutcome where
  success : Bool
  tx_hash : Option String := none
  credits_remaining : Option Int := none
  error : Option String := none
  deriving Repr, DecidableEq

/-- `XionContractService.deduct_cv_credit`: build and submit the execute
message, wait for settlement, scan the logs for `credits_remaining`; any
exception in those stages (including a non-integer attribute value in the
scan) is caught and becomes `{success: False, error: str(e)}`.  Total by
construction: it never raises to its caller. -/
def deduct : ChainEnv → DeductionOutcome
  | .raises m => { success := false, error := some m }
  | .settles h logs =>
    match scanCredits logs with
    | .ok n => { success := true, tx_hash := some h, credits_remaining := some n }
    | .error m => { success := false, error := some m }

/-- The loop body of `deduct_cv_credit_with_retry` over the remaining
attempt indices, returning the final outcome together with the backoff
sleep durations (`2 ** attempt`) performed, in order. -/
def retryLoop (f : Nat → DeductionOutcome) (maxRetries : Nat) :
    List Nat → DeductionOutcome × List Nat
  | [] => ({ success := false, error := some s!"Failed after {maxRetries} attempts" }, [])
  | i :: rest =>
    let r := f i
    if r.success then (r, [])
    else if i < maxRetries - 1 then
      let t := retryLoop f maxRetries rest
      (t.1, 2 ^ i :: t.2)
    else retryLoop f maxRetries rest

/-- `XionContractService.deduct_cv_credit_with_retry` with the
per-attempt outcomes abstracted as `f` (0-based attempt index): return at
the first success, sleep `2 ** attempt` after each failed non-final
attempt, and after exhausting every attempt return a fresh failure
outcome naming the attempt count. -/
def deductWithRetry (f : Nat → DeductionOutcome) (maxRetries : Nat) :
    DeductionOutcome × List Nat :=
  retryLoop f maxRetries (List.range maxRetries)

/-- An endpoint environment in which every candidate answers HTTP 200,
but candidate 0's body fails JSON parsing while candidate 1's parses. -/
def c6Env : Nat → RestAttempt := fun i =>
  if i = 1 then .resp 200 (.ok (.obj [("x", .num 1)]))
  else .resp 200 (.error "Expecting value")

/-- The outcome-shape invariant the data model asserts, weakened to key
presence: a successful outcome carries a transaction hash and no error
key, a failed one an error and no hash, so no outcome carries both.  (The
spec additionally asserts the strings are non-empty, which the code does
not enforce: the error is the raw `str(e)` of the exception.) -/
def outcomeShapeOk (o : DeductionOutcome) : Prop :=
  (o.success = true → o.tx_hash.isSome = true ∧ o.error = none) ∧
  (o.success = false → o.error.isSome = true ∧ o.tx_hash = none) ∧
  ¬(o.tx_hash.isSome = true ∧ o.error.isSome = true)

/-! ## Helper lemmas -/

theorem splitOnChar_ne_nil (c : Char) (cs : List Char) : splitOnChar c cs ≠ [] := by
  induction cs with
  | nil => simp [splitOnChar]
  | cons x xs ih =>
    rw [splitOnChar]
    split
    · simp
    · split <;> simp

theorem pyTruthy_obj_iff (kvs : List (String × J)) :
    pyTruthy (.obj kvs) = true ↔ kvs ≠ [] := by
  simp [pyTruthy, List.isEmpty_iff]

theorem retryLoop_cons_fst (f : Nat → DeductionOutcome) (n i : Nat) (rest : List Nat) :
    (retryLoop f n (i :: rest)).1 =
      if (f i).success then f i else (retryLoop f n rest).1 := by
  rw [retryLoop]
  by_cases hs : (f i).success
  · simp [hs]
  · simp only [hs, Bool.false_eq_true, if_false]
    split <;> rfl

theorem retryLoop_outcome_cases (f : Nat → DeductionOutcome) (n : Nat) (l : List Nat) :
    (retryLoop f n l).1 =
        { success := false, error := some s!"Failed after {n} attempts" } ∨
      ∃ i, i ∈ l ∧ (retryLoop f n l).1 = f i := by
  induction l with
  | nil => left; rfl
  | cons i rest ih =>
    rw [retryLoop_cons_fst]
    by_cases hs : (f i).success
    · right; exact ⟨i, by simp, by simp [hs]⟩
    · simp only [hs, Bool.false_eq_true, if_false]
      rcases ih with h | ⟨j, hj, hjeq⟩
      · left; exact h
      · right; exact ⟨j, by simp [hj], hjeq⟩

theorem retryLoop_first_success (f : Nat → DeductionOutcome) (n : Nat) :
    ∀ b a k : Nat, a ≤ k → k < a + b → k < n →
      (f k).success = true → (∀ j, a ≤ j → j < k → (f j).success = false) →
      retryLoop f n (List.range' a b) = (f k, (List.range' a (k - a)).map (2 ^ ·)) := by
  intro b
  induction b with
  | zero => intro a k _ hk _ _ _; omega
  | succ b ih =>
    intro a k hak hkb hkn hsucc hfail
    rw [List.range'_succ]
    rcases Nat.eq_or_lt_of_le hak with rfl | hlt
    · rw [retryLoop]
      simp [hsucc, Nat.sub_self]
    · have hfa : (f a).success = false := hfail a le_rfl hlt
      have han : a < n - 1 := by omega
      rw [retryLoop]
      simp only [hfa, Bool.false_eq_true, if_false, han, if_true]
      rw [ih (a + 1) k hlt (by omega) hkn hsucc
        (fun j hj1 hj2 => hfail j (by omega) hj2)]
      have hka : k - a = (k - (a + 1)) + 1 := by omega
      rw [hka, List.range'_succ, List.map_cons]

theorem retryLoop_all_fail (f : Nat → DeductionOutcome) (n : Nat) :
    ∀ b a : Nat, a + b = n → (∀ j, a ≤ j → j < n → (f j).success = false) →
      retryLoop f n (List.range' a b) =
        ({ success := false, error := some s!"Failed after {n} attempts" },
          (List.range' a (b - 1)).map (2 ^ ·)) := by
  intro b
  induction b with
  | zero => intro a _ _; simp [retryLoop]
  | succ b ih =>
    intro a hab hfail
    rw [List.range'_succ]
    have hfa : (f a).success = false := hfail a le_rfl (by omega)
    by_cases hb : b = 0
    · subst hb
      have han : ¬ a < n - 1 := by omega
      rw [retryLoop]
      simp [hfa, han, retryLoop]
    · have han : a < n - 1 := by omega
      rw [retryLoop]
      simp only [hfa, Bool.false_eq_true, if_false, han, if_true]
      rw [ih (a + 1) (by omega) (fun j h1 h2 => hfail j (by omega) h2)]
      have hbb : b = (b - 1) + 1 := by omega
      conv_rhs => rw [hbb]
      rw [Nat.add_sub_cancel, List.range'_succ, List.map_cons]

theorem foldlM_scan_attrs (attrs : List EventAttr) (acc : Int) :
    attrs.foldlM (fun acc attr =>
        if attr.key = "credits_remaining" then pyInt attr.value else .ok acc) acc =
      (attrs.filterMap fun attr =>
        if attr.key = "credits_remaining" then some attr.value else none).foldlM
        (fun _ v => pyInt v) acc := by
  induction attrs generalizing acc with
  | nil => rfl
  | cons attr rest ih =>
    by_cases hk : attr.key = "credits_remaining"
    · simp only [List.foldlM_cons, List.filterMap_cons, hk, if_pos]
      cases pyInt attr.value with
      | error e => rfl
      | ok v => simpa using ih v
    · simp only [List.foldlM_cons, List.filterMap_cons, hk, if_false]
      simpa using ih acc

theorem foldlM_scan_events (evs : List TxEvent) (acc : Int) :
    evs.foldlM (fun acc ev =>
        if ev.type = "wasm" then
          ev.attributes.foldlM (fun acc attr =>
            if attr.key = "credits_remaining" then pyInt attr.value else .ok acc) acc
        else .ok acc) acc =
      (evs.flatMap fun ev =>
        if ev.type = "wasm" then
          ev.attributes.filterMap fun attr =>
            if attr.key = "credits_remaining" then some attr.value else none
        else []).foldlM (fun _ v => pyInt v) acc := by
  induction evs generalizing acc with
  | nil => rfl
  | cons ev rest ih =>
    simp only [List.foldlM_cons, List.flatMap_cons, List.foldlM_append]
    by_cases ht : ev.type = "wasm"
    · simp only [ht, if_pos]
      rw [foldlM_scan_attrs]
      cases (ev.attributes.filterMap fun attr =>
          if attr.key = "credits_remaining" then some attr.value else none).foldlM
          (fun _ v => pyInt v) acc with
      | error e => rfl
      | ok v => simpa using ih v
    · simp only [ht, if_false]
      simpa using ih acc

theorem scanCredits_eq (logs : List (List TxEvent)) :
    scanCredits logs = (wasmCreditsVals logs).foldlM (fun _ v => pyInt v) 0 := by
  unfold scanCredits wasmCreditsVals
  generalize (0 : Int) = acc
  induction logs generalizing acc with
  | nil => rfl
  | cons log rest ih =>
    simp only [List.foldlM_cons, List.flatMap_cons, List.foldlM_append]
    rw [foldlM_scan_events]
    cases (log.flatMap fun ev =>
        if ev.type = "wasm" then
          ev.attributes.filterMap fun attr =>
            if attr.key = "credits_remaining" then some attr.value else none
        else []).foldlM (fun _ v => pyInt v) acc with
    | error e => rfl
    | ok v => simpa using ih v

theorem yaml_fold_str (lines : List (List Char)) :
    ∀ acc kvs : List (String × J), (∀ p ∈ acc, ∃ s, p.2 = J.str s) →
      lines.foldlM parseYamlLine acc = .ok kvs →
      ∀ p ∈ kvs, ∃ s, p.2 = J.str s := by
  induction lines with
  | nil =>
    intro acc kvs hacc heq
    simp only [List.foldlM_nil] at heq
    cases heq
    exact hacc
  | cons line rest ih =>
    intro acc kvs hacc heq
    rw [List.foldlM_cons] at heq
    cases hl : parseYamlLine acc line with
    | error e => rw [hl] at heq; exact Except.noConfusion heq
    | ok acc2 =>
      rw [hl] at heq
      refine ih acc2 kvs ?_ heq
      unfold parseYamlLine at hl
      split at hl
      · split at hl
        · cases hl
          intro p hp
          rcases List.mem_append.mp hp with h | h
          · exact hacc p h
          · simp only [List.mem_singleton] at h
            exact ⟨_, by rw [h]⟩
        · exact absurd hl (by simp)
      · cases hl
        exact hacc

theorem verifyCliPhase_false (cli : CliAttempt) (token : String) :
    verifyCliPhase cli token = false →
      ∃ kvs, kvs ≠ [] ∧ queryCli cli = .ok (.obj kvs) := by
  unfold verifyCliPhase
  split
  · rename_i kvs heq
    split
    · rename_i htr
      split
      · rename_i b hb
        intro hfalse
        exact ⟨kvs, (pyTruthy_obj_iff kvs).mp htr, heq⟩
      · intro h; cases h
    · intro h; cases h
  · intro h; cases h
  · intro h; cases h

theorem queryRestAux_error_msg (env : Nat → RestAttempt) :
    ∀ (l : List Nat) (e : String), (queryRestAux env l).1 = .error e →
      e = "All REST API endpoints failed" := by
  intro l
  induction l with
  | nil => intro e he; cases he; rfl
  | cons i rest ih =>
    intro e he
    rw [queryRestAux] at he
    cases hi : tryEndpoint (env i) with
    | some v => rw [hi] at he; exact Except.noConfusion he
    | none => rw [hi] at he; exact ih e he

theorem queryCli_ran_zero (out : String) :
    queryCli (.ran 0 out) =
      (if "data:".toList.isPrefixOf (pyStripChars out.toList) = true
       then parseYamlBlock (pyStripChars out.toList)
       else match jsonLoadsChars (pyStripChars out.toList) with
         | .ok w => Except.ok w
         | .error _ =>
           Except.error s!"Unable to parse CLI output: {String.mk (pyStripChars out.toList)}") := by
  simp [queryCli]

theorem deduct_shape (env : ChainEnv) : outcomeShapeOk (deduct env) := by
  cases env with
  | raises m => simp [deduct, outcomeShapeOk]
  | settles h logs =>
    cases hsc : scanCredits logs with
    | ok n => simp [deduct, hsc, outcomeShapeOk]
    | error m => simp [deduct, hsc, outcomeShapeOk]

/-! ## Claims -/

/-- C1: if every REST endpoint attempt fails to produce a record and the
CLI fallback fails with a transport/parse error, `verify_user_token`
returns `true` (fail-open); and, being a total function, it never
raises. -/
theorem C1_fail_open (env : VerifyEnv) (token : String)
    (hrest : ∀ i, tryEndpoint (env.rest i) = none)
    (hcli : ∃ m, queryCli env.cli = .error m) :
    verify env token = true := by
  obtain ⟨m, hm⟩ := hcli
  have hq : queryRest env.rest = .error "All REST API endpoints failed" := by
    simp [queryRest, queryRestAux, hrest]
  simp [verify, hq, verifyCliPhase, hm]

theorem C1_fail_open_witness :
    verify ⟨fun _ => .exn "connection refused", .exn "xiond not found"⟩ "tok:1:u" = true :=
  C1_fail_open _ "tok:1:u" (fun _ => rfl) ⟨"xiond not found", rfl⟩

/-- C2 counterexample: the claim says a result of `true` requires the
first colon-segments to be non-empty, and that an empty presented token
always yields `false`; but the code accepts a stored token `":a"` against
the empty presented token, because both first segments are the empty
string. -/
theorem C2_cex : tokenMatches ":a" "" = true := rfl

/-- C2 (amended): `matches` returns true iff the stored token is
non-empty and either the two strings are equal or their first
colon-delimited segments are equal — the common first segment may be
empty, so an empty presented token matches any stored token beginning
with a colon, and only an empty stored token forces `false`. -/
theorem C2_matches_spec (stored token : String) :
    tokenMatches stored token = true ↔
      stored ≠ "" ∧ (stored = token ∨ firstSeg stored = firstSeg token) := by
  unfold tokenMatches firstSeg
  by_cases h1 : stored = ""
  · simp [h1]
  · by_cases h2 : stored = token
    · simp [h1, h2]
    · have hsp := List.length_pos.mpr (splitOnChar_ne_nil ':' stored.toList)
      have htp := List.length_pos.mpr (splitOnChar_ne_nil ':' token.toList)
      simp only [String.toList] at hsp htp
      simp [h1, h2, hsp, htp, String.ext_iff]

theorem C2_matches_spec_witness : tokenMatches "a:1:x" "a:1:y" = true :=
  (C2_matches_spec "a:1:x" "a:1:y").mpr ⟨by decide, Or.inr rfl⟩

/-- C3 counterexample: with a deduct function failing every attempt with
error "boom", the wrapper's final outcome is the fresh dict
`{success: False, error: "Failed after 3 attempts"}`; the last underlying
error "boom" appears nowhere in it, so the final outcome does not
"reflect the last underlying failure, annotated". -/
theorem C3_cex :
    (deductWithRetry (fun _ => { success := false, error := some "boom" }) 3).1 =
      { success := false, error := some "Failed after 3 attempts" } ∧
    ¬ ("boom".toList <:+: "Failed after 3 attempts".toList) :=
  ⟨rfl, by decide⟩

/-- C3 (amended): the retry wrapper returns the first outcome with
`success = true` without further attempts; if all attempts fail it
returns a fresh failure outcome whose error notes only the attempt count,
discarding the last attempt's own error message. -/
theorem C3_retry_outcome (f : Nat → DeductionOutcome) (n : Nat) :
    (∀ k, k < n → (f k).success = true → (∀ j, j < k → (f j).success = false) →
      (deductWithRetry f n).1 = f k) ∧
    ((∀ j, j < n → (f j).success = false) →
      (deductWithRetry f n).1 =
        { success := false, error := some s!"Failed after {n} attempts" }) := by
  constructor
  · intro k hk hs hf
    unfold deductWithRetry
    rw [List.range_eq_range',
      retryLoop_first_success f n n 0 k (Nat.zero_le k) (by omega) hk hs
        (fun j _ hj => hf j hj)]
  · intro hall
    unfold deductWithRetry
    rw [List.range_eq_range',
      retryLoop_all_fail f n n 0 (by omega) (fun j _ hj => hall j hj)]

theorem C3_retry_outcome_witness :
    (deductWithRetry (fun _ => { success := false, error := some "err" }) 2).1 =
      { success := false, error := some "Failed after 2 attempts" } :=
  (C3_retry_outcome (fun _ => { success := false, error := some "err" }) 2).2
    (fun _ _ => rfl)

/-- C4 counterexample: an exception whose `str(e)` is the empty string
(e.g. `raise Exception()`) yields `{success: False, error: ""}` — the
error key is present but empty, so "a non-empty error" is not
guaranteed. -/
theorem C4_cex :
    (deduct (.raises "")).success = false ∧ (deduct (.raises "")).error = some "" :=
  ⟨rfl, rfl⟩

/-- C4 (amended): every outcome of `deduct_cv_credit` and of the retry
wrapper has the key shape the spec asserts — success carries a tx_hash
and no error, failure carries an error and no tx_hash, never both — but
non-emptiness of the strings is not enforced (the error is the raw
exception message, which may be empty). -/
theorem C4_shape (env : ChainEnv) (envs : Nat → ChainEnv) (n : Nat) :
    outcomeShapeOk (deduct env) ∧
    outcomeShapeOk (deductWithRetry (fun i => deduct (envs i)) n).1 := by
  refine ⟨deduct_shape env, ?_⟩
  rcases retryLoop_outcome_cases (fun i => deduct (envs i)) n (List.range n) with h | ⟨i, _, hi⟩
  · unfold deductWithRetry
    rw [h]
    simp [outcomeShapeOk]
  · unfold deductWithRetry
    rw [hi]
    exact deduct_shape (envs i)

theorem C4_shape_witness : (deduct (.raises "x")).error.isSome = true := by
  have h := (C4_shape (.raises "x") (fun _ => .raises "x") 1).1
  unfold outcomeShapeOk at h
  exact (h.2.1 rfl).1

/-- C7: on settlement, the scan over emitted events extracts the
`credits_remaining` attribute of a `wasm`-typed event: if exactly one
such attribute is present and parses as an integer, the outcome carries
that value; if none is present the outcome is still a success with
`credits_remaining = 0`. -/
theorem C7_credits_scan (h : String) (logs : List (List TxEvent)) :
    (wasmCreditsVals logs = [] →
      deduct (.settles h logs) =
        { success := true, tx_hash := some h, credits_remaining := some 0 }) ∧
    (∀ v n, wasmCreditsVals logs = [v] → pyInt v = .ok n →
      deduct (.settles h logs) =
        { success := true, tx_hash := some h, credits_remaining := some n }) := by
  constructor
  · intro hv
    have hsc : scanCredits logs = .ok 0 := by rw [scanCredits_eq, hv]; rfl
    simp [deduct, hsc]
  · intro v n hv hp
    have hsc : scanCredits logs = .ok n := by
      rw [scanCredits_eq, hv]
      simp [List.foldlM_cons, List.foldlM_nil, hp]
    simp [deduct, hsc]

theorem C7_credits_scan_witness :
    deduct (.settles "HASH" [[⟨"wasm", [⟨"credits_remaining", "4"⟩]⟩]]) =
      { success := true, tx_hash := some "HASH", credits_remaining := some 4 } :=
  (C7_credits_scan "HASH" [[⟨"wasm", [⟨"credits_remaining", "4"⟩]⟩]]).2 "4" 4 rfl rfl

/-- C8: the retry wrapper sleeps `2 ** attempt` time units after each
failed non-final attempt and never after the last one: with the first
success at 0-indexed attempt `k` the sleeps are `[1, 2, ..., 2^(k-1)]`,
with no success they are `[1, 2, ..., 2^(n-2)]`; in the spec's scenario
(fail, fail, success with 3 attempts) the outcome succeeds and exactly
two sleeps of 1 and 2 units occur. -/
theorem C8_backoff (f : Nat → DeductionOutcome) (n : Nat) :
    (∀ k, k < n → (f k).success = true → (∀ j, j < k → (f j).success = false) →
      (deductWithRetry f n).2 = (List.range k).map (2 ^ ·)) ∧
    ((∀ j, j < n → (f j).success = false) →
      (deductWithRetry f n).2 = (List.range (n - 1)).map (2 ^ ·)) ∧
    deductWithRetry (fun i => if i = 2 then { success := true, tx_hash := some "h3" }
        else { success := false, error := some "fail" }) 3 =
      ({ success := true, tx_hash := some "h3" }, [1, 2]) := by
  refine ⟨?_, ?_, rfl⟩
  · intro k hk hs hf
    unfold deductWithRetry
    rw [List.range_eq_range',
      retryLoop_first_success f n n 0 k (Nat.zero_le k) (by omega) hk hs
        (fun j _ hj => hf j hj)]
    simp [List.range_eq_range']
  · intro hall
    unfold deductWithRetry
    rw [List.range_eq_range',
      retryLoop_all_fail f n n 0 (by omega) (fun j _ hj => hall j hj)]
    simp [List.range_eq_range']

theorem C8_backoff_witness :
    (deductWithRetry (fun i => if i = 2 then { success := true, tx_hash := some "h3" }
        else { success := false, error := some "fail" }) 3).2 = [1, 2] := by
  have h := (C8_backoff (fun i => if i = 2 then { success := true, tx_hash := some "h3" }
      else { success := false, error := some "fail" }) 3).1 2 (by omega) rfl
      (by intro j hj; interval_cases j <;> rfl)
  rw [h]
  rfl

/-- C9: `deduct_cv_credit` never raises to its caller: a raise from
signing, submission or settlement becomes `{success: False, error: str(e)}`,
and so does an exception raised while scanning the settled logs (a
non-integer `credits_remaining` value). -/
theorem C9_deduct_never_raises (m h : String) (logs : List (List TxEvent)) :
    deduct (.raises m) = { success := false, error := some m } ∧
    (∀ m2, scanCredits logs = .error m2 →
      deduct (.settles h logs) = { success := false, error := some m2 }) := by
  refine ⟨rfl, fun m2 hm => ?_⟩
  simp [deduct, hm]

theorem C9_deduct_never_raises_witness :
    deduct (.settles "HASH" [[⟨"wasm", [⟨"credits_remaining", "oops"⟩]⟩]]) =
      { success := false, error := some "invalid literal for int() with base 10: oops" } :=
  (C9_deduct_never_raises "m" "HASH" [[⟨"wasm", [⟨"credits_remaining", "oops"⟩]⟩]]).2 _ rfl

/-- C5 counterexample: the key:value branch yields string values — on a
`data:` block the parsed record maps `has_active_token` to the STRING
`"true"`, not a bool; and the JSON branch accepts any JSON document,
e.g. a list, which is not a ContractTokenRecord shape at all. -/
theorem C5_cex :
    queryCli (.ran 0 "data:\n  has_active_token: true\n  token: abc") =
      .ok (.obj [("has_active_token", .str "true"), ("token", .str "abc")]) ∧
    queryCli (.ran 0 "[1, 2]") = .ok (.arr [.num 1, .num 2]) :=
  ⟨rfl, rfl⟩

/-- C5 (amended): a failed spawn or a non-zero exit raises without retry;
any accepted output parses either through the key:value branch — a
mapping whose values are all plain strings, with no bool/int conversion —
or through the JSON branch, yielding exactly the JSON document; a
non-`data:` output whose JSON parse fails is an unparsable-output
error. -/
theorem C5_parser_shape :
    (∀ m, queryCli (.exn m) = .error m) ∧
    (∀ (code : Int) (out : String), code ≠ 0 →
      queryCli (.ran code out) = .error s!"CLI command failed with code {code}") ∧
    (∀ (out : String) (v : J), queryCli (.ran 0 out) = .ok v →
      (∃ kvs, v = .obj kvs ∧ ∀ p ∈ kvs, ∃ s, p.2 = J.str s) ∨
      jsonLoadsChars (pyStripChars out.toList) = .ok v) ∧
    (∀ out m : String,
      ("data:".toList).isPrefixOf (pyStripChars out.toList) = false →
      jsonLoadsChars (pyStripChars out.toList) = .error m →
      queryCli (.ran 0 out) =
        .error s!"Unable to parse CLI output: {String.mk (pyStripChars out.toList)}") := by
  refine ⟨fun m => rfl, fun code out hc => ?_, fun out v hv => ?_, fun out m hpre hjs => ?_⟩
  · simp [queryCli, hc]
  · rw [queryCli_ran_zero] at hv
    split at hv
    · left
      unfold parseYamlBlock at hv
      cases hf : (splitOnChar '\n' (pyStripChars out.toList)).foldlM parseYamlLine
          ([] : List (String × J)) with
      | error e => rw [hf] at hv; exact Except.noConfusion hv
      | ok kvs =>
        rw [hf] at hv
        cases hv
        exact ⟨kvs, rfl, yaml_fold_str _ [] kvs (by simp) hf⟩
    · split at hv
      · rename_i w hw
        cases hv
        right
        exact hw
      · exact Except.noConfusion hv
  · rw [queryCli_ran_zero, hpre]
    simp only [String.toList] at hjs
    simp [hjs]

theorem C5_parser_shape_witness :
    queryCli (.ran 1 "") = .error "CLI command failed with code 1" :=
  C5_parser_shape.2.1 1 "" (by decide)

/-- C6 counterexample: candidate 0 answers HTTP 200 but with a body that
fails JSON parsing, and the loop then tries candidate 1 — two attempts
occur, so `verify` does not stop at the first candidate that returns
HTTP 200 as the claim states. -/
theorem C6_cex :
    restAttempted c6Env = [0, 1] ∧
    c6Env 0 = .resp 200 (.error "Expecting value") :=
  ⟨rfl, rfl⟩

/-- C6 (amended): candidates are tried strictly in configured order, one
read each, stopping at the first candidate that yields a usable parsed
body (HTTP 200 whose JSON body parses and unwraps; a 200 response with
an unparsable body counts as a failed attempt); if the REST phase obtains
a record on which validation does not itself raise — in particular any
non-dict result — the CLI fallback is not invoked; the CLI fallback runs
exactly when the REST phase raises: all three candidates failed, or
validation of the REST record raised. -/
theorem C6_endpoint_order (env : VerifyEnv) (token : String) :
    (∀ k v, k < 3 → tryEndpoint (env.rest k) = some v →
      (∀ j, j < k → tryEndpoint (env.rest j) = none) →
      restAttempted env.rest = List.range (k + 1) ∧ queryRest env.rest = .ok v) ∧
    ((∀ j, j < 3 → tryEndpoint (env.rest j) = none) →
      restAttempted env.rest = [0, 1, 2] ∧
      queryRest env.rest = .error "All REST API endpoints failed") ∧
    (∀ kvs b, queryRest env.rest = .ok (.obj kvs) → validateToken kvs token = .ok b →
      cliInvoked env token = false) ∧
    (∀ v, queryRest env.rest = .ok v → isDict v = false → cliInvoked env token = false) ∧
    (cliInvoked env token = true →
      queryRest env.rest = .error "All REST API endpoints failed" ∨
      ∃ kvs m, queryRest env.rest = .ok (.obj kvs) ∧ validateToken kvs token = .error m) := by
  refine ⟨?_, ?_, ?_, ?_, ?_⟩
  · intro k v hk hkv hj
    interval_cases k
    · simp [restAttempted, queryRest, queryRestAux, hkv, List.range_succ]
    · have h0 := hj 0 (by omega)
      simp [restAttempted, queryRest, queryRestAux, hkv, h0, List.range_succ]
    · have h0 := hj 0 (by omega)
      have h1 := hj 1 (by omega)
      simp [restAttempted, queryRest, queryRestAux, hkv, h0, h1, List.range_succ]
  · intro hall
    have h0 := hall 0 (by omega)
    have h1 := hall 1 (by omega)
    have h2 := hall 2 (by omega)
    simp [restAttempted, queryRest, queryRestAux, h0, h1, h2]
  · intro kvs b hq hvb
    simp [cliInvoked, hq, hvb]
  · intro v hq hd
    cases v <;> simp_all [cliInvoked, isDict]
  · intro hcl
    unfold cliInvoked at hcl
    split at hcl
    · rename_i kvs hq
      right
      simp only [Bool.and_eq_true] at hcl
      have h2 := hcl.2
      cases hv : validateToken kvs token with
      | ok b => rw [hv] at h2; exact Bool.noConfusion h2
      | error m => exact ⟨kvs, m, hq, hv⟩
    · exact Bool.noConfusion hcl
    · rename_i e hq
      left
      rw [queryRestAux_error_msg env.rest [0, 1, 2] e hq] at hq
      exact hq

theorem C6_endpoint_order_witness :
    restAttempted (fun i => if i = 2 then
        .resp 200 (.ok (.obj [("has_active_token", .bool true), ("token", .str "t:1:u")]))
      else .exn "connection refused") = [0, 1, 2] := by
  have h := (C6_endpoint_order
      ⟨fun i => if i = 2 then
          .resp 200 (.ok (.obj [("has_active_token", .bool true), ("token", .str "t:1:u")]))
        else .exn "connection refused", .exn "no xiond"⟩ "t:1:u").1 2
      (.obj [("has_active_token", .bool true), ("token", .str "t:1:u")])
      (by omega) rfl (by intro j hj; interval_cases j <;> rfl)
  exact h.1.trans rfl

/-- C10 (implicit): `verify` treats a successfully transported but
unusable record — an empty dict or a non-dict result — via the fail-open
branch and returns `true`; only a non-empty dict record (from REST or
from the CLI fallback) can make `verify` return `false`. -/
theorem C10_unusable_record_fail_open (env : VerifyEnv) (token : String) :
    (∀ r, queryRest env.rest = .ok r → (r = .obj [] ∨ isDict r = false) →
      verify env token = true) ∧
    (verify env token = false →
      ∃ kvs, kvs ≠ [] ∧
        (queryRest env.rest = .ok (.obj kvs) ∨ queryCli env.cli = .ok (.obj kvs))) := by
  constructor
  · rintro r hq (rfl | hd)
    · simp [verify, hq, pyTruthy]
    · cases r <;> simp_all [verify, isDict]
  · intro hf
    unfold verify at hf
    split at hf
    · rename_i kvs hq
      split at hf
      · rename_i htr
        split at hf
        · exact ⟨kvs, (pyTruthy_obj_iff kvs).mp htr, Or.inl hq⟩
        · obtain ⟨kvs2, hne, hcli⟩ := verifyCliPhase_false env.cli token hf
          exact ⟨kvs2, hne, Or.inr hcli⟩
      · exact Bool.noConfusion hf
    · exact Bool.noConfusion hf
    · obtain ⟨kvs2, hne, hcli⟩ := verifyCliPhase_false env.cli token hf
      exact ⟨kvs2, hne, Or.inr hcli⟩

theorem C10_unusable_record_fail_open_witness :
    verify ⟨fun _ => .resp 200 (.ok (.obj [])), .exn "x"⟩ "tok" = true :=
  (C10_unusable_record_fail_open ⟨fun _ => .resp 200 (.ok (.obj [])), .exn "x"⟩ "tok").1
    (.obj []) rfl (Or.inl rfl)

end Propellant
